import Mathlib

/-!  A shallow embedding of the time-function algebra implemented in
`lib/neuroimaging/modalities/fmri/functions.py`: the `TimeFunction` class,
its call/windowing semantics, the operator overloads dispatched through
`_helper`, and the generator subclasses (`InterpolatedConfound`,
`Stimulus` / `PeriodicStimulus` / `Events`, `SplineConfound`).

Real numbers are modelled by `ℚ`; numpy arrays by lists (`TimeArray` for a
one-dimensional time array, `Channels` for the stacked channels-by-times
result of a call).  The final `N.squeeze` of `TimeFunction.__call__` is a
shape normalization only and is not modelled: results keep the stacked
`Channels` layout (a single-channel result is the one-row matrix `[row]`).
Python exceptions are modelled by `Except TFError`. -/

abbrev TimeArray := List ℚ

abbrev Channels := List (List ℚ)

/-- Exceptions raised by the embedded code: the `ValueError` for mismatched
output counts and mismatched sequence/array lengths in `_helper`, the
`ValueError` for an unrecognized operand type, the `TypeError` from calling
an `fn` that was never assigned (its traits default is `None`), and the
`IndexError` from an out-of-range element access. -/
inductive TFError where
  | channelMismatch
  | unrecognizedType
  | notCallable
  | indexError
  deriving DecidableEq

/-- Modelled from the spec: `recipr0` (scipy `models.utils`) is an external
capability, specified in the spec as the zero-safe reciprocal
`recip0(x) = 0 if x == 0 else 1/x`, applied elementwise. -/
def recipr0 (x : ℚ) : ℚ := if x = 0 then 0 else x⁻¹

/-- Modelled from the spec: `StepFunction` (scipy `models.utils`) is an
external capability, specified in the spec as a step function over sorted
breakpoints and values, each breakpoint beginning a new level held until the
next breakpoint, and evaluating to 0 before the first breakpoint. -/
def stepFunctionEval (times values : List ℚ) (t : ℚ) : ℚ :=
  (times.zip values).foldl (fun acc p => if p.1 ≤ t then p.2 else acc) 0

/-- The `fn` trait of a `TimeFunction`.  In the source it is `traits.Any()`:
either a single callable (returning a one-dimensional array, or an already
stacked two-dimensional array when it was built by an operator overload for
`nout > 1`), or a list/tuple of per-channel callables, or the default `None`
when no rule was ever assigned.  The four constructors model those cases. -/
inductive Rule where
  | fnRow : (TimeArray → Except TFError (List ℚ)) → Rule
  | fnMat : (TimeArray → Except TFError Channels) → Rule
  | flist : List (TimeArray → Except TFError (List ℚ)) → Rule
  | unset : Rule

/-- The `TimeFunction` traits: `nout` (default 1), `fn` (default `None`),
`windowed` (default false) and `window` (default `[0., 0.]`). -/
structure TimeFunction where
  nout : Nat
  fn : Rule
  windowed : Bool
  window : ℚ × ℚ

/-- The pointwise windowing mask of `TimeFunction.__call__`:
`N.greater(time, window[0]) * N.less_equal(time, window[1])`. -/
def windowFactor (w : ℚ × ℚ) (t : ℚ) : ℚ :=
  (if w.1 < t then 1 else 0) * (if t ≤ w.2 then 1 else 0)

/-- Sequential evaluation of a list with exception propagation, as a Python
`for` loop over the list performs. -/
def mapExcept {α β : Type} (f : α → Except TFError β) : List α → Except TFError (List β)
  | [] => Except.ok []
  | x :: xs => do pure ((← f x) :: (← mapExcept f xs))

/-- The `columns` computed by `TimeFunction.__call__` before windowing: for
`nout == 1` the single callable is invoked and wrapped in a one-element
list; otherwise a list/tuple `fn` is invoked per channel and a single
callable is expected to return the stacked array itself (a callable
returning a one-dimensional array leaves its entries as the columns). -/
def TimeFunction.rawColumns (tf : TimeFunction) (t : TimeArray) : Except TFError Channels :=
  if tf.nout = 1 then
    match tf.fn with
    | Rule.fnRow f => do pure [← f t]
    | Rule.fnMat f => f t
    | Rule.flist _ => Except.error TFError.notCallable
    | Rule.unset => Except.error TFError.notCallable
  else
    match tf.fn with
    | Rule.flist fs => mapExcept (fun f => f t) fs
    | Rule.fnMat f => f t
    | Rule.fnRow f => do pure ((← f t).map (fun x => [x]))
    | Rule.unset => Except.error TFError.notCallable

/-- `TimeFunction.__call__`: evaluate the rule's columns, then, if windowed,
multiply every column elementwise by the window mask evaluated on the input
time array (`column * _window`).  The trailing `N.squeeze` is not modelled. -/
def TimeFunction.call (tf : TimeFunction) (t : TimeArray) : Except TFError Channels := do
  let columns ← tf.rawColumns t
  if tf.windowed then
    pure (columns.map (fun col => List.zipWith (· * ·) col (t.map (windowFactor tf.window))))
  else
    pure columns

/-- Elementwise combination of two stacked results, as numpy broadcasting
performs for `_self(time) op _other(time)` on arrays of equal shape. -/
def matZip (op : ℚ → ℚ → ℚ) (a b : Channels) : Channels :=
  List.zipWith (List.zipWith op) a b

/-- Elementwise map over a stacked result, as numpy broadcasting performs
for `_self(time) op scalar`. -/
def matMap (f : ℚ → ℚ) (a : Channels) : Channels := a.map (fun row => row.map f)

/-- The per-channel loop of the `f3` closures:
`for i in range(_other.shape[0]): v[i] op= _other[i]` combines channel `i`
of the stacked evaluation with entry `i` of the sequence operand. -/
def vecCombine (op : ℚ → ℚ → ℚ) (v : List ℚ) (a : Channels) : Channels :=
  List.zipWith (fun c row => row.map (fun x => op x c)) v a

/-- The `other` operand of an operator overload: another `TimeFunction`, a
float/int scalar, a list/tuple/one-dimensional ndarray, or anything else
(the `unrecognized type` branch). -/
inductive Operand where
  | tf : TimeFunction → Operand
  | scalar : ℚ → Operand
  | vec : List ℚ → Operand
  | unrecognized : Operand

/-- `TimeFunction._helper`: dispatch on the operand's type, checking
`other.nout == self.nout` for a `TimeFunction` operand and the length
(`shape` for an ndarray) against `self.nout` for a sequence operand, and
return `TimeFunction(fn=_f, nout=self.nout)` built from the selected
closure (all other traits keep their defaults). -/
def TimeFunction.helper (self : TimeFunction) (other : Operand)
    (f1 : TimeFunction → Rule) (f2 : ℚ → Rule) (f3 : List ℚ → Rule) :
    Except TFError TimeFunction :=
  match other with
  | Operand.tf g =>
      if g.nout = self.nout then
        Except.ok { nout := self.nout, fn := f1 g, windowed := false, window := (0, 0) }
      else Except.error TFError.channelMismatch
  | Operand.scalar c =>
      Except.ok { nout := self.nout, fn := f2 c, windowed := false, window := (0, 0) }
  | Operand.vec v =>
      if v.length = self.nout then
        Except.ok { nout := self.nout, fn := f3 v, windowed := false, window := (0, 0) }
      else Except.error TFError.channelMismatch
  | Operand.unrecognized => Except.error TFError.unrecognizedType

/-- `TimeFunction.__mul__`: the three closures `f1`, `f2`, `f3` passed to
`_helper`. -/
def TimeFunction.mul (self : TimeFunction) (other : Operand) : Except TFError TimeFunction :=
  self.helper other
    (fun g => Rule.fnMat (fun t => do pure (matZip (· * ·) (← self.call t) (← g.call t))))
    (fun c => Rule.fnMat (fun t => do pure (matMap (· * c) (← self.call t))))
    (fun v => Rule.fnMat (fun t => do pure (vecCombine (· * ·) v (← self.call t))))

/-- `TimeFunction.__add__`. -/
def TimeFunction.add (self : TimeFunction) (other : Operand) : Except TFError TimeFunction :=
  self.helper other
    (fun g => Rule.fnMat (fun t => do pure (matZip (· + ·) (← self.call t) (← g.call t))))
    (fun c => Rule.fnMat (fun t => do pure (matMap (· + c) (← self.call t))))
    (fun v => Rule.fnMat (fun t => do pure (vecCombine (· + ·) v (← self.call t))))

/-- `TimeFunction.__sub__`. -/
def TimeFunction.sub (self : TimeFunction) (other : Operand) : Except TFError TimeFunction :=
  self.helper other
    (fun g => Rule.fnMat (fun t => do pure (matZip (· - ·) (← self.call t) (← g.call t))))
    (fun c => Rule.fnMat (fun t => do pure (matMap (· - c) (← self.call t))))
    (fun v => Rule.fnMat (fun t => do pure (vecCombine (· - ·) v (← self.call t))))

/-- `TimeFunction.__div__`: like `__mul__` but multiplying by the zero-safe
reciprocal `recipr0` of the divisor's evaluation / scalar / entries. -/
def TimeFunction.div (self : TimeFunction) (other : Operand) : Except TFError TimeFunction :=
  self.helper other
    (fun g => Rule.fnMat (fun t => do
        pure (matZip (fun x y => x * recipr0 y) (← self.call t) (← g.call t))))
    (fun c => Rule.fnMat (fun t => do pure (matMap (· * recipr0 c) (← self.call t))))
    (fun v => Rule.fnMat (fun t => do pure (vecCombine (fun x y => x * recipr0 y) v (← self.call t))))

/-- `TimeFunction.__getitem__(j)`: a new `TimeFunction` (all traits default,
so `nout = 1` and unwindowed) whose rule calls the parent object and
extracts row `int(j)` of the result. -/
def TimeFunction.getitem (tf : TimeFunction) (j : Nat) : TimeFunction :=
  { nout := 1,
    fn := Rule.fnRow (fun t => do
      let m ← tf.call t
      if h : j < m.length then pure (m.get ⟨j, h⟩) else Except.error TFError.indexError),
    windowed := false, window := (0, 0) }

/-- The comparison key used to model `N.argsort(times)` followed by
`N.take(times, asort)` / `N.take(values, asort)` in `Events.append`:
breakpoint/value pairs are sorted by breakpoint (a stable comparison sort;
for the code's non-overlap precondition the breakpoints are distinct, so
every correct sort produces the same list). -/
def keyle (a b : ℚ × ℚ) : Prop := a.1 ≤ b.1

instance : DecidableRel keyle := fun a b => inferInstanceAs (Decidable (a.1 ≤ b.1))

instance : IsTotal (ℚ × ℚ) keyle := ⟨fun a b => le_total a.1 b.1⟩

instance : IsTrans (ℚ × ℚ) keyle := ⟨fun _ _ _ h1 h2 => le_trans h1 h2⟩

/-- The state of a `Stimulus`/`Events` object: the `times` and `values`
traits (default `None`) and the inherited `fn` trait. `nout` stays at its
default 1 and windowing at its default off, see `Stimulus.toTF`. -/
structure StimulusState where
  times : Option (List ℚ)
  values : Option (List ℚ)
  fn : Rule

/-- The `TimeFunction` view of a `Stimulus`/`Events` object: `nout`,
`windowed` and `window` keep their trait defaults. -/
def Stimulus.toTF (s : StimulusState) : TimeFunction :=
  { nout := 1, fn := s.fn, windowed := false, window := (0, 0) }

/-- `Events.append(start, duration, height)`: reset `times`/`values` to
empty lists when `times` is `None` (the freshly constructed state), append
breakpoints `[start, start + duration]` with values `[height, 0.]`, sort
the breakpoints (applying the same permutation to the values, modelled by
sorting the zipped pairs by breakpoint) and rebuild `fn` as the step
function over the sorted breakpoints and values, evaluated elementwise on
the time array. -/
def Events.append (e : StimulusState) (start duration height : ℚ) : StimulusState :=
  let ts := match e.times with | none => [] | some ts => ts
  let vs := match e.times with | none => [] | some _ => e.values.getD []
  let pairs := ((ts ++ [start, start + duration]).zip (vs ++ [height, 0])).insertionSort keyle
  let ts' := pairs.map Prod.fst
  let vs' := pairs.map Prod.snd
  { times := some ts', values := some vs',
    fn := Rule.fnRow (fun t => Except.ok (t.map (stepFunctionEval ts' vs'))) }

/-- The `times` list built by `PeriodicStimulus.__init__`: the near-zero
sentinel `-1.0e-07` followed, for each pulse `i < n`, by the pulse start
`step*i + start` and pulse end `step*i + start + duration`. -/
def periodicStimulusTimes (n : Nat) (start duration step : ℚ) : List ℚ :=
  [-(1 / 10000000)] ++
    (List.range n).flatMap (fun i => [step * i + start, step * i + start + duration])

/-- The `values` list built by `PeriodicStimulus.__init__`: `0.` for the
sentinel, then `[height, 0.]` per pulse. -/
def periodicStimulusValues (n : Nat) (height : ℚ) : List ℚ :=
  [0] ++ (List.range n).flatMap (fun _ => [height, 0])

/-- `PeriodicStimulus.__init__`: build the breakpoint and value lists and
call `Stimulus.__init__(times=times, values=values)`, which (being the
plain traits initializer) only stores the two traits; no other trait is
assigned, so `fn` keeps its default `None` (`Rule.unset`). -/
def periodicStimulus (n : Nat) (start duration step height : ℚ) : StimulusState :=
  { times := some (periodicStimulusTimes n start duration step),
    values := some (periodicStimulusValues n height),
    fn := Rule.unset }

/-- The data of one `scipy.interpolate.interp1d` linear interpolant: the
sample abscissae and ordinates it was built from.  (Its evaluation
behaviour is an external capability and is not needed by the claims.) -/
structure Interp1d where
  x : List ℚ
  y : List ℚ
  deriving DecidableEq

/-- Column `i` of a two-dimensional array, `values[:,i]`: raises
`IndexError` when `i` is out of range of a row. -/
def npColumn (values : List (List ℚ)) (i : Nat) : Except TFError (List ℚ) :=
  mapExcept (fun row => if h : i < row.length then Except.ok (row.get ⟨i, h⟩)
                        else Except.error TFError.indexError) values

/-- The result of `InterpolatedConfound.__init__`: the list `self.f` of
interpolants and the `nout` trait. -/
structure InterpConfound where
  f : List Interp1d
  nout : Nat
  deriving DecidableEq

/-- The two-dimensional branch of `InterpolatedConfound.__init__`
(`len(N.asarray(self.values).shape) != 1`): for `i in
range(values.shape[0])` build `interp1d(self.times, self.values[:,i])`,
then set `self.nout = values.shape[0]`.  `values.shape[0]` is the number
of rows, i.e. `values.length` in the row-list representation. -/
def interpolatedConfound2D (times : List ℚ) (values : List (List ℚ)) :
    Except TFError InterpConfound := do
  let fs ← mapExcept (fun i => do
    let col ← npColumn values i
    pure (Interp1d.mk times col)) (List.range values.length)
  pure { f := fs, nout := values.length }

/-- The knot values `trange * N.arange(1, self.df - 2) / (self.df - 3.0) + tmin`
computed by `SplineConfound.__init__` when `df >= 4` and no knots were
supplied: `arange(1, df - 2)` enumerates `1 .. df - 3`. -/
def interiorKnots (df : Nat) (window : ℚ × ℚ) : List (WithTop ℚ) :=
  (List.range (df - 3)).map
    (fun (i : Nat) =>
      (((window.2 - window.1) * ((i : ℚ) + 1) / ((df : ℚ) - 3) + window.1 : ℚ) : WithTop ℚ))

/-- `getpoly(j)` of `SplineConfound.__init__`: the monomial channel
`time**j`, elementwise on the time array. -/
def getpoly (j : Nat) : TimeArray → Except TFError (List ℚ) :=
  fun time => Except.ok (time.map (fun τ => τ ^ j))

/-- `_getspline(a, b)` of `SplineConfound.__init__`: the truncated cubic
channel `N.power(time, 3.0) * N.greater(time, a) * N.less_equal(time, b)`,
elementwise on the time array; the bounds live in `WithTop ℚ` because the
last knot is forced to `N.inf`. -/
def getspline (a b : WithTop ℚ) : TimeArray → Except TFError (List ℚ) :=
  fun time => Except.ok (time.map (fun (τ : ℚ) =>
    let gt : ℚ := if a < (τ : WithTop ℚ) then 1 else 0
    let le : ℚ := if (τ : WithTop ℚ) ≤ b then 1 else 0
    τ ^ 3 * gt * le))

/-- The result of `SplineConfound.__init__`: the channel list `self.fn`,
the final `self.knots`, and `self.nout = self.df`. -/
structure SplineConfound where
  fn : List (TimeArray → Except TFError (List ℚ))
  knots : List (WithTop ℚ)
  nout : Nat

/-- `SplineConfound.__init__` for window `[tmin, tmax]`: append
`getpoly(i)` for `i in range(min(df, 4))`; when `df >= 4` and the `knots`
trait is empty, compute the interior knots; the unconditional
`self.knots[-1] = N.inf` raises `IndexError` on an empty knot list, and
otherwise replaces the last knot by infinity; finally append
`_getspline(knots[i], knots[i+1])` per consecutive knot pair and set
`nout = df`. -/
def splineConfound (df : Nat) (knots : List (WithTop ℚ)) (window : ℚ × ℚ) :
    Except TFError SplineConfound :=
  let polys := (List.range (min df 4)).map getpoly
  let knots1 := if 4 ≤ df ∧ knots = [] then interiorKnots df window else knots
  if knots1.isEmpty then Except.error TFError.indexError
  else
    let knots2 := knots1.dropLast ++ [⊤]
    let splines := (knots2.zip knots2.tail).map (fun p => getspline p.1 p.2)
    Except.ok { fn := polys ++ splines, knots := knots2, nout := df }

/-- A concrete two-channel evaluation rule: the identity channel. -/
def chanA : TimeArray → Except TFError (List ℚ) := fun t => Except.ok t

/-- A concrete channel doubling the time values. -/
def chanB : TimeArray → Except TFError (List ℚ) := fun t => Except.ok (t.map (· * 2))

/-- A concrete constant channel of value 3. -/
def chanC : TimeArray → Except TFError (List ℚ) := fun t => Except.ok (t.map (fun _ => 3))

/-- A concrete constant channel of value 10. -/
def chanD : TimeArray → Except TFError (List ℚ) := fun t => Except.ok (t.map (fun _ => 10))

/-- A concrete two-channel `TimeFunction` (a two-function `fn` list). -/
def tfTwo : TimeFunction := ⟨2, Rule.flist [chanA, chanB], false, (0, 0)⟩

/-- A second concrete two-channel `TimeFunction`. -/
def tfTwoB : TimeFunction := ⟨2, Rule.flist [chanC, chanD], false, (0, 0)⟩

/-- A concrete three-channel `TimeFunction`. -/
def tfThree : TimeFunction := ⟨3, Rule.flist [chanA, chanB, chanC], false, (0, 0)⟩

/-- A concrete windowed single-channel `TimeFunction`, constant 1 on window
`[2, 5]`. -/
def tfWin : TimeFunction :=
  ⟨1, Rule.fnRow (fun t => Except.ok (t.map (fun _ => 1))), true, (2, 5)⟩

theorem zip_fst_snd {α β : Type} (l : List (α × β)) :
    List.zip (l.map Prod.fst) (l.map Prod.snd) = l := by
  induction l with
  | nil => rfl
  | cons a l ih => simp [List.zip_cons_cons, ih]

theorem call_fnMat (n : Nat) (w : ℚ × ℚ) (F : TimeArray → Except TFError Channels)
    (t : TimeArray) :
    TimeFunction.call ⟨n, Rule.fnMat F, false, w⟩ t = F t := by
  cases hF : F t <;> by_cases h : n = 1 <;>
    simp [TimeFunction.call, TimeFunction.rawColumns, h, hF, Bind.bind, Except.bind,
      Pure.pure, Except.pure]

theorem call_fnRow (w : ℚ × ℚ) (F : TimeArray → Except TFError (List ℚ)) (t : TimeArray)
    (row : List ℚ) (hF : F t = Except.ok row) :
    TimeFunction.call ⟨1, Rule.fnRow F, false, w⟩ t = Except.ok [row] := by
  simp [TimeFunction.call, TimeFunction.rawColumns, hF, Bind.bind, Except.bind,
    Pure.pure, Except.pure]

theorem matZip_entry (op : ℚ → ℚ → ℚ) (a b : Channels) (i j : Nat)
    (hia : i < a.length) (hib : i < b.length)
    (hja : j < (a.get ⟨i, hia⟩).length) (hjb : j < (b.get ⟨i, hib⟩).length) :
    ∃ (hi : i < (matZip op a b).length) (hj : j < ((matZip op a b).get ⟨i, hi⟩).length),
      ((matZip op a b).get ⟨i, hi⟩).get ⟨j, hj⟩
        = op ((a.get ⟨i, hia⟩).get ⟨j, hja⟩) ((b.get ⟨i, hib⟩).get ⟨j, hjb⟩) := by
  have hi : i < (matZip op a b).length := by
    simp only [matZip, List.length_zipWith]
    omega
  have hrow : (matZip op a b).get ⟨i, hi⟩
      = List.zipWith op (a.get ⟨i, hia⟩) (b.get ⟨i, hib⟩) := by
    simp only [matZip, List.get_eq_getElem, List.getElem_zipWith]
  have hj : j < ((matZip op a b).get ⟨i, hi⟩).length := by
    rw [hrow]
    simp only [List.length_zipWith]
    omega
  refine ⟨hi, hj, ?_⟩
  simp only [List.get_eq_getElem, matZip, List.getElem_zipWith]

theorem matMap_matMap (f g : ℚ → ℚ) (a : Channels) :
    matMap g (matMap f a) = matMap (fun x => g (f x)) a := by
  simp [matMap, List.map_map, Function.comp]

theorem matMap_eq_self (f : ℚ → ℚ) (hf : ∀ x, f x = x) (a : Channels) :
    matMap f a = a := by
  have hid : f = id := funext hf
  simp [matMap, hid]

/-- C1: `PeriodicStimulus(n=2, start=0, duration=1, step=3, height=1)` builds
the breakpoints `[-1e-7, 0, 1, 3, 4]` and values `[0, 1, 0, 1, 0]`, but the
`Stimulus` construction path never assigns the `fn` trait, so calling the
resulting object at `t = [0.5, 2.0, 3.5, 10.0]` invokes `None` and fails
instead of evaluating; the step function over the breakpoint/value lists it
does build would yield the claimed `[1, 0, 1, 0]`. -/
theorem periodicStimulus_not_evaluable :
    (Stimulus.toTF (periodicStimulus 2 0 1 3 1)).call [1/2, 2, 7/2, 10]
      = Except.error TFError.notCallable ∧
    (periodicStimulus 2 0 1 3 1).fn = Rule.unset ∧
    [stepFunctionEval (periodicStimulusTimes 2 0 1 3) (periodicStimulusValues 2 1) (1/2),
     stepFunctionEval (periodicStimulusTimes 2 0 1 3) (periodicStimulusValues 2 1) 2,
     stepFunctionEval (periodicStimulusTimes 2 0 1 3) (periodicStimulusValues 2 1) (7/2),
     stepFunctionEval (periodicStimulusTimes 2 0 1 3) (periodicStimulusValues 2 1) 10]
      = [1, 0, 1, 0] := by
  refine ⟨?_, rfl, ?_⟩
  · norm_num [Stimulus.toTF, periodicStimulus, TimeFunction.call, TimeFunction.rawColumns,
      Bind.bind, Except.bind]
  · norm_num [stepFunctionEval, periodicStimulusTimes, periodicStimulusValues,
      List.range_succ]

/-- C2: `InterpolatedConfound.__init__` on a two-dimensional `values` array
iterates `i in range(values.shape[0])` (the number of rows) and sets
`nout = values.shape[0]`, not the number of columns: on a 3-samples-by-2-
channels array the column access `values[:,2]` raises `IndexError`, and on a
1-by-2 array construction succeeds with a single interpolant and `nout = 1`
instead of one interpolant per column with `nout = 2`. -/
theorem interpolatedConfound2D_rowsAsChannels :
    interpolatedConfound2D [0, 1, 2] [[1, 2], [3, 4], [5, 6]]
      = Except.error TFError.indexError ∧
    interpolatedConfound2D [0] [[1, 2]]
      = Except.ok ⟨[⟨[0], [1]⟩], 1⟩ := by
  constructor <;>
    norm_num [interpolatedConfound2D, npColumn, List.range_succ, Bind.bind, Except.bind,
      mapExcept, Pure.pure, Except.pure]

/-- C3: combining a TimeFunction with another TimeFunction of different
`nout`, or with a sequence/vector whose length differs from `nout`
(in particular `nout = 2` against the length-3 vector `[1, 2, 3]`), makes
each of multiply, add, subtract and divide fail with the channel-mismatch
error at combination time: `_helper` returns the error instead of a new
TimeFunction, so no evaluation rule is built or called at any time point. -/
theorem combine_mismatch_eager (f g : TimeFunction) (v : List ℚ) :
    (g.nout ≠ f.nout →
      f.mul (Operand.tf g) = Except.error TFError.channelMismatch ∧
      f.add (Operand.tf g) = Except.error TFError.channelMismatch ∧
      f.sub (Operand.tf g) = Except.error TFError.channelMismatch ∧
      f.div (Operand.tf g) = Except.error TFError.channelMismatch) ∧
    (v.length ≠ f.nout →
      f.mul (Operand.vec v) = Except.error TFError.channelMismatch ∧
      f.add (Operand.vec v) = Except.error TFError.channelMismatch ∧
      f.sub (Operand.vec v) = Except.error TFError.channelMismatch ∧
      f.div (Operand.vec v) = Except.error TFError.channelMismatch) := by
  constructor <;> intro h <;>
    simp [TimeFunction.mul, TimeFunction.add, TimeFunction.sub, TimeFunction.div,
      TimeFunction.helper, h]

/-- Witness for C3 at `nout = 2` against a three-channel TimeFunction and
against the length-3 vector. -/
theorem combine_mismatch_eager_witness :
    TimeFunction.mul tfTwo (Operand.tf tfThree) = Except.error TFError.channelMismatch ∧
    TimeFunction.div tfTwo (Operand.vec [1, 2, 3]) = Except.error TFError.channelMismatch :=
  ⟨((combine_mismatch_eager tfTwo tfThree [1, 2, 3]).1 (by decide)).1,
   ((combine_mismatch_eager tfTwo tfThree [1, 2, 3]).2 (by decide)).2.2.2⟩

/-- C4: division is zero-safe.  For any TimeFunction and scalar `c`,
`f / c` is built from the zero-safe reciprocal: its evaluation is the
evaluation of `f` with every entry multiplied by `recipr0 c`; for `c ≠ 0`
multiplying the result back by `c` recovers `f`'s evaluation exactly, and
`f / 0` is a defined TimeFunction whose evaluation is all zeros (no
exception, no infinity).  Division by another TimeFunction of matching
`nout` multiplies by the zero-safe reciprocal of the divisor's evaluation
elementwise, so it yields 0 wherever the divisor is exactly 0. -/
theorem tf_div_zero_safe (f g : TimeFunction) (c : ℚ) (hn : g.nout = f.nout) :
    ∃ divc div0 divg : TimeFunction,
      f.div (Operand.scalar c) = Except.ok divc ∧
      f.div (Operand.scalar 0) = Except.ok div0 ∧
      f.div (Operand.tf g) = Except.ok divg ∧
      ∀ t a b, f.call t = Except.ok a → g.call t = Except.ok b →
        divc.call t = Except.ok (matMap (· * recipr0 c) a) ∧
        (c ≠ 0 → matMap (· * c) (matMap (· * recipr0 c) a) = a) ∧
        div0.call t = Except.ok (matMap (· * recipr0 0) a) ∧
        (∀ row ∈ matMap (· * recipr0 0) a, ∀ x ∈ row, x = 0) ∧
        divg.call t = Except.ok (matZip (fun x y => x * recipr0 y) a b) ∧
        (∀ x y : ℚ, y = 0 → x * recipr0 y = 0) := by
  refine ⟨⟨f.nout, Rule.fnMat (fun t => do pure (matMap (· * recipr0 c) (← f.call t))),
            false, (0, 0)⟩,
          ⟨f.nout, Rule.fnMat (fun t => do pure (matMap (· * recipr0 0) (← f.call t))),
            false, (0, 0)⟩,
          ⟨f.nout, Rule.fnMat (fun t => do
              pure (matZip (fun x y => x * recipr0 y) (← f.call t) (← g.call t))),
            false, (0, 0)⟩, ?_, ?_, ?_, ?_⟩
  · simp [TimeFunction.div, TimeFunction.helper]
  · simp [TimeFunction.div, TimeFunction.helper]
  · simp [TimeFunction.div, TimeFunction.helper, hn]
  · intro t a b ha hb
    refine ⟨?_, ?_, ?_, ?_, ?_, ?_⟩
    · rw [call_fnMat]
      simp [ha, Bind.bind, Except.bind, Pure.pure, Except.pure]
    · intro hc
      rw [matMap_matMap]
      refine matMap_eq_self _ (fun x => ?_) a
      rw [recipr0, if_neg hc, mul_assoc, inv_mul_cancel₀ hc, mul_one]
    · rw [call_fnMat]
      simp [ha, Bind.bind, Except.bind, Pure.pure, Except.pure]
    · intro row hrow x hx
      rcases List.mem_map.1 hrow with ⟨r0, _, rfl⟩
      rcases List.mem_map.1 hx with ⟨y, _, rfl⟩
      simp [recipr0]
    · rw [call_fnMat]
      simp [ha, hb, Bind.bind, Except.bind, Pure.pure, Except.pure]
    · intro x y hy
      simp [recipr0, hy]

/-- Witness for C4: dividing the concrete two-channel function by 3 and
multiplying back by 3 recovers its values, and dividing by 0 evaluates to
all zeros. -/
theorem tf_div_zero_safe_witness :
    (∃ divc : TimeFunction, tfTwo.div (Operand.scalar 3) = Except.ok divc ∧
      divc.call [1, 2] = Except.ok [[1/3, 2/3], [2/3, 4/3]] ∧
      matMap (· * 3) [[1/3, 2/3], [2/3, 4/3]] = [[1, 2], [2, 4]]) ∧
    (∃ div0 : TimeFunction, tfTwo.div (Operand.scalar 0) = Except.ok div0 ∧
      div0.call [1, 2] = Except.ok [[0, 0], [0, 0]]) := by
  obtain ⟨divc, div0, divg, h1, h2, h3, h4⟩ := tf_div_zero_safe tfTwo tfTwo 3 rfl
  have ha : tfTwo.call [1, 2] = Except.ok [[1, 2], [2, 4]] := by
    norm_num [tfTwo, chanA, chanB, TimeFunction.call, TimeFunction.rawColumns, mapExcept,
      Bind.bind, Except.bind, Pure.pure, Except.pure]
  obtain ⟨e1, e2, e3, e4, e5, e6⟩ := h4 [1, 2] _ _ ha ha
  constructor
  · refine ⟨divc, h1, ?_, ?_⟩
    · rw [e1]; norm_num [matMap, recipr0]
    · have := e2 (by norm_num)
      rw [show matMap (· * recipr0 3) [[1, 2], [2, 4]] = [[1/3, 2/3], [2/3, 4/3]] from by
        norm_num [matMap, recipr0]] at this
      exact this
  · refine ⟨div0, h2, ?_⟩
    rw [e3]
    norm_num [matMap, recipr0]
    decide

/-- C5: for TimeFunctions of equal `nout`, addition, multiplication and
subtraction succeed and the combined function's evaluation at any time
array is the elementwise sum / product / difference of the two operands'
evaluations (the last conjunct exhibits the elementwise reading of
`matZip` entry by entry). -/
theorem tf_ops_pointwise (f g : TimeFunction) (hn : g.nout = f.nout) :
    ∃ addfg mulfg subfg : TimeFunction,
      f.add (Operand.tf g) = Except.ok addfg ∧
      f.mul (Operand.tf g) = Except.ok mulfg ∧
      f.sub (Operand.tf g) = Except.ok subfg ∧
      ∀ t a b, f.call t = Except.ok a → g.call t = Except.ok b →
        addfg.call t = Except.ok (matZip (· + ·) a b) ∧
        mulfg.call t = Except.ok (matZip (· * ·) a b) ∧
        subfg.call t = Except.ok (matZip (· - ·) a b) ∧
        ∀ (op : ℚ → ℚ → ℚ) (i j : Nat) (hia : i < a.length) (hib : i < b.length)
          (hja : j < (a.get ⟨i, hia⟩).length) (hjb : j < (b.get ⟨i, hib⟩).length),
          ∃ (hi : i < (matZip op a b).length)
            (hj : j < ((matZip op a b).get ⟨i, hi⟩).length),
            ((matZip op a b).get ⟨i, hi⟩).get ⟨j, hj⟩
              = op ((a.get ⟨i, hia⟩).get ⟨j, hja⟩) ((b.get ⟨i, hib⟩).get ⟨j, hjb⟩) := by
  refine ⟨⟨f.nout, Rule.fnMat (fun t => do pure (matZip (· + ·) (← f.call t) (← g.call t))),
            false, (0, 0)⟩,
          ⟨f.nout, Rule.fnMat (fun t => do pure (matZip (· * ·) (← f.call t) (← g.call t))),
            false, (0, 0)⟩,
          ⟨f.nout, Rule.fnMat (fun t => do pure (matZip (· - ·) (← f.call t) (← g.call t))),
            false, (0, 0)⟩, ?_, ?_, ?_, ?_⟩
  · simp [TimeFunction.add, TimeFunction.helper, hn]
  · simp [TimeFunction.mul, TimeFunction.helper, hn]
  · simp [TimeFunction.sub, TimeFunction.helper, hn]
  · intro t a b ha hb
    refine ⟨?_, ?_, ?_, fun op i j hia hib hja hjb => matZip_entry op a b i j hia hib hja hjb⟩ <;>
      rw [call_fnMat] <;>
        simp [ha, hb, Bind.bind, Except.bind, Pure.pure, Except.pure]

/-- Witness for C5 on two concrete two-channel functions at `t = [1, 2]`. -/
theorem tf_ops_pointwise_witness :
    ∃ addfg : TimeFunction, tfTwo.add (Operand.tf tfTwoB) = Except.ok addfg ∧
      addfg.call [1, 2] = Except.ok [[4, 5], [12, 14]] := by
  obtain ⟨addfg, mulfg, subfg, h1, h2, h3, h4⟩ := tf_ops_pointwise tfTwo tfTwoB rfl
  have ha : tfTwo.call [1, 2] = Except.ok [[1, 2], [2, 4]] := by
    norm_num [tfTwo, chanA, chanB, TimeFunction.call, TimeFunction.rawColumns, mapExcept,
      Bind.bind, Except.bind, Pure.pure, Except.pure]
  have hb : tfTwoB.call [1, 2] = Except.ok [[3, 3], [10, 10]] := by
    norm_num [tfTwoB, chanC, chanD, TimeFunction.call, TimeFunction.rawColumns, mapExcept,
      Bind.bind, Except.bind, Pure.pure, Except.pure]
  obtain ⟨e1, e2, e3, e4⟩ := h4 [1, 2] _ _ ha hb
  exact ⟨addfg, h1, by rw [e1]; norm_num [matZip]⟩

/-- C6: a fresh `Events` after a single `append(1.0, 2.0, height=5.0)`
evaluates to 0 at `t = 0.5`, to 5 at `t = 1.5` and to 0 at `t = 4.0`; and in
general `append` inserts breakpoints `[start, start + duration]` with values
`[height, 0]`, sorts the combined breakpoints with the values permuted
identically (the sorted breakpoint/value pairs are a permutation of the
combined pairs) and rebuilds the step-function evaluation rule from the
sorted lists. -/
theorem events_append_behaviour :
    ((Stimulus.toTF (Events.append ⟨none, none, Rule.unset⟩ 1 2 5)).call [1/2]
        = Except.ok [[0]] ∧
     (Stimulus.toTF (Events.append ⟨none, none, Rule.unset⟩ 1 2 5)).call [3/2]
        = Except.ok [[5]] ∧
     (Stimulus.toTF (Events.append ⟨none, none, Rule.unset⟩ 1 2 5)).call [4]
        = Except.ok [[0]]) ∧
    (∀ (ts vs : List ℚ) (r : Rule) (start duration height : ℚ),
      ∃ ts' vs' : List ℚ,
        (Events.append ⟨some ts, some vs, r⟩ start duration height).times = some ts' ∧
        (Events.append ⟨some ts, some vs, r⟩ start duration height).values = some vs' ∧
        List.Sorted (· ≤ ·) ts' ∧
        List.Perm (ts'.zip vs') ((ts ++ [start, start + duration]).zip (vs ++ [height, 0])) ∧
        (Events.append ⟨some ts, some vs, r⟩ start duration height).fn
          = Rule.fnRow (fun t => Except.ok (t.map (stepFunctionEval ts' vs')))) := by
  constructor
  · refine ⟨?_, ?_, ?_⟩ <;>
      norm_num [Stimulus.toTF, Events.append, TimeFunction.call, TimeFunction.rawColumns,
        Bind.bind, Except.bind, Pure.pure, Except.pure, stepFunctionEval,
        List.insertionSort, List.orderedInsert, keyle]
  · intro ts vs r start duration height
    refine ⟨_, _, rfl, rfl, ?_, ?_, rfl⟩
    · exact List.Pairwise.map Prod.fst (fun _ _ hk => hk)
        (List.sorted_insertionSort keyle _)
    · rw [zip_fst_snd]
      exact List.perm_insertionSort keyle _

/-- C7: `channel_select` round-trip: `__getitem__(j)` yields a single-channel
TimeFunction whose evaluation at any time array is exactly row `j` of the
parent's evaluation; its rule invokes the parent object itself, so it
reflects whatever the parent computes at call time. -/
theorem getitem_roundtrip (tf : TimeFunction) (j : Nat) (t : TimeArray) (m : Channels)
    (hmulti : 1 < tf.nout) (hc : tf.call t = Except.ok m) (hj : j < m.length) :
    (tf.getitem j).call t = Except.ok [m.get ⟨j, hj⟩] := by
  refine call_fnRow (0, 0) _ t _ ?_
  show (do
      let mm ← tf.call t
      if h : j < mm.length then pure (mm.get ⟨j, h⟩)
      else Except.error TFError.indexError : Except TFError (List ℚ))
    = Except.ok (m.get ⟨j, hj⟩)
  rw [hc]
  simp [Bind.bind, Except.bind, hj, Pure.pure, Except.pure]

/-- Witness for C7: selecting channel 1 of the concrete two-channel function
at `t = [1, 2]` returns that channel's row. -/
theorem getitem_roundtrip_witness :
    (TimeFunction.getitem tfTwo 1).call [1, 2] = Except.ok [[2, 4]] :=
  getitem_roundtrip tfTwo 1 [1, 2] [[1, 2], [2, 4]] (by decide)
    (by norm_num [tfTwo, chanA, chanB, TimeFunction.call, TimeFunction.rawColumns, mapExcept,
      Bind.bind, Except.bind, Pure.pure, Except.pure])
    (by decide)

/-- C8: a windowed TimeFunction multiplies every channel pointwise by the
window mask: its call equals the raw columns with each column multiplied by
the mask of the input time array, and multiplying a value by the mask
factor yields the value itself on `start < t <= end` and 0 outside. -/
theorem windowed_call (tf : TimeFunction) (t : TimeArray) (m0 : Channels)
    (hw : tf.windowed = true) (hraw : tf.rawColumns t = Except.ok m0) :
    tf.call t
      = Except.ok (m0.map (fun col => List.zipWith (· * ·) col (t.map (windowFactor tf.window)))) ∧
    ∀ x τ : ℚ, x * windowFactor tf.window τ
      = if tf.window.1 < τ ∧ τ ≤ tf.window.2 then x else 0 := by
  constructor
  · simp [TimeFunction.call, hraw, hw, Bind.bind, Except.bind, Pure.pure, Except.pure]
  · intro x τ
    unfold windowFactor
    by_cases h1 : tf.window.1 < τ <;> by_cases h2 : τ ≤ tf.window.2 <;> simp [h1, h2]

/-- Witness for C8: the constant-1 channel on window `[2, 5]` evaluated at
`t = [1, 2, 3, 5, 6]` is zeroed at `t <= 2` and `t > 5` and passes through
on `2 < t <= 5`. -/
theorem windowed_call_witness :
    tfWin.call [1, 2, 3, 5, 6] = Except.ok [[0, 0, 1, 1, 0]] := by
  have h := (windowed_call tfWin [1, 2, 3, 5, 6] [[1, 1, 1, 1, 1]] rfl
    (by norm_num [tfWin, TimeFunction.rawColumns, Bind.bind, Except.bind,
      Pure.pure, Except.pure] <;> decide)).1
  rw [h]
  norm_num [tfWin, windowFactor]

/-- C9: `SplineConfound` with `df = 4` on window `[0, 10]` yields exactly 4
channels, all monomials `t^0 .. t^3`, and no truncated-power channels
(`knots` collapses to the single infinite knot); in general for `df >= 4`
with no explicit knots it computes the `df - 3` interior knots
`trange * i / (df - 3) + tmin` for `i` in `1 .. df - 3`, forces the last
knot to infinity, and appends one truncated cubic channel per consecutive
knot pair so that the channel list has length `df` and `nout = df`. -/
theorem splineConfound_basis (df : Nat) (w : ℚ × ℚ) (hdf : 4 ≤ df) :
    (∃ r : SplineConfound, splineConfound 4 [] (0, 10) = Except.ok r ∧ r.nout = 4 ∧
       r.fn.length = 4 ∧ r.knots = [⊤] ∧
       ∀ (j : Nat) (hj : j < r.fn.length) (ts : TimeArray),
         (r.fn.get ⟨j, hj⟩) ts = Except.ok (ts.map (fun τ => τ ^ j))) ∧
    (∃ r : SplineConfound, splineConfound df [] w = Except.ok r ∧ r.nout = df ∧
       r.knots = (interiorKnots df w).dropLast ++ [⊤] ∧ r.knots.length = df - 3 ∧
       r.fn = (List.range 4).map getpoly
         ++ (r.knots.zip r.knots.tail).map (fun (p : WithTop ℚ × WithTop ℚ) =>
              getspline p.1 p.2) ∧
       r.fn.length = df) := by
  constructor
  · refine ⟨⟨[getpoly 0, getpoly 1, getpoly 2, getpoly 3], [⊤], 4⟩, rfl, rfl, rfl, rfl, ?_⟩
    intro j hj ts
    simp only [List.length_cons, List.length_nil] at hj
    interval_cases j <;> rfl
  · have hmin : min df 4 = 4 := min_eq_right hdf
    have hlen : (interiorKnots df w).length = df - 3 := by
      simp [interiorKnots]
    have hne : (interiorKnots df w).isEmpty = false := by
      rw [List.isEmpty_eq_false]
      intro hnil
      rw [hnil] at hlen
      simp at hlen
      omega
    refine ⟨⟨(List.range (min df 4)).map getpoly
        ++ (((interiorKnots df w).dropLast ++ [⊤]).zip
              ((interiorKnots df w).dropLast ++ [⊤]).tail).map
            (fun (p : WithTop ℚ × WithTop ℚ) => getspline p.1 p.2),
        (interiorKnots df w).dropLast ++ [⊤], df⟩, ?_, rfl, rfl, ?_, ?_, ?_⟩
    · simp only [splineConfound]
      rw [if_pos (show (4 ≤ df ∧ True) from ⟨hdf, trivial⟩), hne]
      rfl
    · rw [List.length_append, List.length_dropLast, hlen]
      simp
      omega
    · rw [hmin]
    · rw [List.length_append, List.length_map, List.length_range, hmin,
        List.length_map, List.length_zip, List.length_tail, List.length_append,
        List.length_dropLast, hlen]
      simp
      omega

/-- Witness for C9 at `df = 5`: construction succeeds with five channels. -/
theorem splineConfound_basis_witness :
    ∃ r : SplineConfound, splineConfound 5 [] (0, 10) = Except.ok r ∧ r.nout = 5 ∧
      r.fn.length = 5 := by
  obtain ⟨r, h1, h2, _, _, _, h6⟩ := (splineConfound_basis 5 (0, 10) (by decide)).2
  exact ⟨r, h1, h2, h6⟩

/-- C10: for `1 <= df < 4` with no explicit knots, `SplineConfound`
construction does not complete: the knot list is still empty when the
unconditional `self.knots[-1] = N.inf` assignment runs, so construction
raises `IndexError` and no confound with `df` monomial channels is
produced. -/
theorem splineConfound_small_df (df : Nat) (w : ℚ × ℚ) (h1 : 1 ≤ df) (h2 : df < 4) :
    splineConfound df [] w = Except.error TFError.indexError := by
  have hne : ¬ 4 ≤ df := by omega
  simp [splineConfound, hne]

/-- Witness for C10 at `df = 2`. -/
theorem splineConfound_small_df_witness :
    splineConfound 2 [] (0, 10) = Except.error TFError.indexError :=
  splineConfound_small_df 2 (0, 10) (by decide) (by decide)
